import Mathlib

/-!
# Verification of `slog-rs/syslog` core components

Shallow embedding of the data model and operations of the `slog-syslog`
crate: the syslog `Level` and `Facility` enums (`src/src/level.rs`,
`src/src/facility.rs`), the `Priority` type (`src/src/priority.rs`), the
RFC-5424-like value escaper and the default message format
(`src/src/format.rs` / `src/src/adapter.rs`), the drain's per-event `log`
method (`src/src/drain.rs`), the `openlog`/`closelog` ownership lifecycle
(`src/src/drain.rs`), and the error-selection logic of `Streamer3164::log`
(`src/lib.rs`).

Numeric constants are those of `libc` on Linux, the platform this crate is
compiled for here (`LOG_EMERG = 0` … `LOG_DEBUG = 7`;
`LOG_KERN = 0`, `LOG_USER = 8`, …, `LOG_LOCAL7 = 23 << 3`).
-/

namespace SlogSyslog

/-! ## `slog::Level` (application severity, external collaborator) -/

/-- The six severity levels of the `slog` crate. -/
inductive SlogLevel where
  | Critical
  | Error
  | Warning
  | Info
  | Debug
  | Trace
deriving DecidableEq, Repr, Fintype

/-! ## `Level` (`src/src/level.rs`) -/

/-- Syslog severity level, from `src/src/level.rs`. -/
inductive Level where
  | Debug
  | Info
  | Notice
  | Warning
  | Err
  | Crit
  | Alert
  | Emerg
deriving DecidableEq, Repr, Fintype

namespace Level

/-- `impl From<Level> for c_int`, with the Linux `libc::LOG_*` values. -/
def toInt : Level → Int
  | .Emerg => 0
  | .Alert => 1
  | .Crit => 2
  | .Err => 3
  | .Warning => 4
  | .Notice => 5
  | .Info => 6
  | .Debug => 7

/-- `Level::from_slog`. The Rust `match` has arms for `Critical`, `Error`,
`Warning`, `Debug | Trace`, and a `_ => Level::Info` catch-all; since
`slog::Level` is a closed enum, the catch-all fires exactly for `Info`. -/
def from_slog : SlogLevel → Level
  | .Critical => .Crit
  | .Error => .Err
  | .Warning => .Warning
  | .Debug | .Trace => .Debug
  | _ => .Info

end Level

/-! ## `Facility` (`src/src/facility.rs`)

The Rust enum has a hidden `__NonExhaustive` variant whose every use
panics (`name`, `From<Facility> for c_int`); it is not a real facility and
is excluded from this embedding. -/

/-- Syslog facility, from `src/src/facility.rs` (without the hidden,
always-panicking `__NonExhaustive` variant). -/
inductive Facility where
  | Auth
  | AuthPriv
  | Cron
  | Daemon
  | Ftp
  | Kern
  | Install
  | Launchd
  | Local0
  | Local1
  | Local2
  | Local3
  | Local4
  | Local5
  | Local6
  | Local7
  | Lpr
  | Mail
  | Ntp
  | NetInfo
  | News
  | Ras
  | RemoteAuth
  | Security
  | Syslog
  | User
  | Uucp
deriving DecidableEq, Repr, Fintype

namespace Facility

/-- `impl From<Facility> for c_int`, with the Linux `cfg` branches taken
(so e.g. `Install → LOG_USER`, `Ntp → LOG_DAEMON`,
`Security → LOG_AUTH`). Linux `libc` facility values are `N << 3`. -/
def toInt : Facility → Int
  | .Auth => 4 <<< 3
  | .AuthPriv => 10 <<< 3
  | .Cron => 9 <<< 3
  | .Daemon => 3 <<< 3
  | .Ftp => 11 <<< 3
  | .Kern => 0
  | .Install => 1 <<< 3
  | .Launchd => 3 <<< 3
  | .Local0 => 16 <<< 3
  | .Local1 => 17 <<< 3
  | .Local2 => 18 <<< 3
  | .Local3 => 19 <<< 3
  | .Local4 => 20 <<< 3
  | .Local5 => 21 <<< 3
  | .Local6 => 22 <<< 3
  | .Local7 => 23 <<< 3
  | .Lpr => 6 <<< 3
  | .Mail => 2 <<< 3
  | .Ntp => 3 <<< 3
  | .NetInfo => 3 <<< 3
  | .News => 7 <<< 3
  | .Ras => 1 <<< 3
  | .RemoteAuth => 3 <<< 3
  | .Security => 4 <<< 3
  | .Syslog => 5 <<< 3
  | .User => 1 <<< 3
  | .Uucp => 8 <<< 3

end Facility

/-! ## `Priority` (`src/src/priority.rs`) -/

/-- The private `PriorityKind` enum of `src/src/priority.rs`. -/
inductive PriorityKind where
  | Normal (level : Level) (facility : Option Facility)
  | Raw (priority : Int)
deriving DecidableEq, Repr

/-- `pub struct Priority(PriorityKind)`. -/
structure Priority where
  kind : PriorityKind
deriving DecidableEq, Repr

namespace Priority

/-- `Priority::new`. -/
def new (level : Level) (facility : Option Facility) : Priority :=
  ⟨.Normal level facility⟩

/-- `Priority::from_raw` (the `unsafe` raw constructor). -/
def from_raw (priority : Int) : Priority :=
  ⟨.Raw priority⟩

/-- `Priority::level`. -/
def level (p : Priority) : Option Level :=
  match p.kind with
  | .Normal level _ => some level
  | .Raw _ => none

/-- `Priority::facility`. -/
def facility (p : Priority) : Option Facility :=
  match p.kind with
  | .Normal _ facility => facility
  | .Raw _ => none

/-- `Priority::overlay`. -/
def overlay (p other : Priority) : Priority :=
  match p.kind, other.kind with
  | .Normal level none, .Normal _ (some facility) => Priority.new level (some facility)
  | _, _ => p

/-- `Priority::into_raw`. -/
def into_raw (p : Priority) : Int :=
  match p.kind with
  | .Normal level facility => Int.lor level.toInt ((facility.map Facility.toInt).getD 0)
  | .Raw priority => priority

/-- `impl PartialEq for Priority`: comparison of the `into_raw` encodings. -/
def eqPriority (p other : Priority) : Bool :=
  p.into_raw == other.into_raw

/-- `impl Hash for Priority`: `self.into_raw().hash(state)` — the hasher
state is fed exactly the `into_raw` value. `hashWith` abstracts over the
hasher: whatever the hash function, it is applied to `into_raw`. -/
def hashWith {α : Type} (hasher : Int → α) (p : Priority) : α :=
  hasher p.into_raw

/-- `impl From<Level> for Priority`. -/
def ofLevel (level : Level) : Priority :=
  Priority.new level none

end Priority

/-! ## Default priority mapping (`src/src/adapter.rs`, `Adapter::priority`) -/

/-- The default implementation of `Adapter::priority`
(`src/src/adapter.rs` lines 128–131): `Level::from_slog(record.level()).into()`.
It depends on the record only through its level. -/
def defaultAdapterPriority (recordLevel : SlogLevel) : Priority :=
  Priority.ofLevel (Level.from_slog recordLevel)

/-! ## `Rfc5424LikeValueEscaper` (`src/src/format.rs` lines 162–199)

Strings are modelled as `List Char`; the underlying sink is the pure
string accumulator (a `String` in the crate's own unit test), whose writes
cannot fail, so the `?` propagation in the Rust code never fires and the
embedding is a total function from input to the text appended to the
sink. -/

/-- The predicate of the `s.find(|c| c == '\\' || c == '"' || c == ']')`
call in `write_str`. -/
def isEscDelim (c : Char) : Bool :=
  c == '\\' || c == '"' || c == ']'

/-- `Rfc5424LikeValueEscaper::write_char`: the text it writes to the sink
for one character. -/
def write_char (c : Char) : List Char :=
  if c = '\\' then ['\\', '\\']
  else if c = '"' then ['\\', '"']
  else if c = ']' then ['\\', ']']
  else [c]

/-- The `s.find(...)` call of `write_str`: index of the first escapable
delimiter, if any. -/
def findDelim : List Char → Option Nat
  | [] => none
  | c :: rest => if isEscDelim c then some 0 else (findDelim rest).map (· + 1)

theorem findDelim_lt_length {s : List Char} {i : Nat} (h : findDelim s = some i) :
    i < s.length := by
  induction s generalizing i with
  | nil => simp [findDelim] at h
  | cons c rest ih =>
    simp only [findDelim] at h
    by_cases hc : isEscDelim c
    · rw [if_pos hc] at h
      injection h with h
      simp only [List.length_cons]
      omega
    · rw [if_neg hc] at h
      cases hmap : findDelim rest with
      | none => rw [hmap] at h; simp at h
      | some j =>
        rw [hmap] at h
        simp only [Option.map] at h
        injection h with h
        have := ih hmap
        simp only [List.length_cons]
        omega

/-- `Rfc5424LikeValueEscaper::write_str`: the text it writes to the sink.
Each loop iteration writes the text before the found delimiter (a no-op
when the delimiter is at index 0), writes the escaped delimiter via
`write_char`, and continues on the remainder. (The Rust `else` branch of
`if s.len() >= index` is dead code, since `find` returns an in-bounds
index; the final `if !s.is_empty()` write of the remainder is a no-op for
the empty remainder.) -/
def write_str (s : List Char) : List Char :=
  match h : findDelim s with
  | none => s
  | some i =>
    s.take i ++ write_char (s.getD i default) ++ write_str (s.drop (i + 1))
termination_by s.length
decreasing_by
  have := findDelim_lt_length h
  simp only [List.length_drop]
  omega

/-- The escaping contract in the spec's words: each occurrence of
backslash, double-quote, or closing-bracket is prefixed by a single
backslash; every other character is copied through unchanged. -/
def escapeSpec (s : List Char) : List Char :=
  s.flatMap fun c => if isEscDelim c then ['\\', c] else [c]

/-- The inverse transformation in the spec's words: remove the single
backslash prefix before each escaped character. -/
def unescape : List Char → List Char
  | [] => []
  | [c] => [c]
  | a :: b :: rest =>
    if a = '\\' ∧ isEscDelim b then b :: unescape rest
    else a :: unescape (b :: rest)

/-! ## `DefaultMsgFormat` (`src/src/format.rs` lines 282–335)

A key-value pair is modelled as the pair of its key text and the rendered
text of its value (`emit_arguments` receives the key and the value's
format arguments). The serializer state is the text written so far
(formatter output) together with the `is_first_kv` flag. -/

/-- A key-value attribute: key text and rendered value text. -/
abbrev KVPair : Type := List Char × List Char

/-- `SerializerImpl::emit_arguments`: writes `" ["` on the first pair and
`" "` afterwards, then the key unaltered, `="`, the value through
`Rfc5424LikeValueEscaper`, and a closing quote; clears `is_first_kv`. -/
def emit_arguments (st : List Char × Bool) (kv : KVPair) : List Char × Bool :=
  (st.1 ++ (if st.2 then (" [".data) else (" ".data)) ++
    kv.1 ++ ("=\"".data) ++ write_str kv.2 ++ ("\"".data), false)

/-- `SerializerImpl::finish`: writes `"]"` if any pair was emitted. -/
def serializer_finish (st : List Char × Bool) : List Char :=
  if !st.2 then st.1 ++ ("]".data) else st.1

/-- `DefaultMsgFormat::fmt`: writes the message, serializes the logger
(scope) key-value list, then the record's own key-value list, then
finishes. -/
def defaultMsgFormat_fmt (msg : List Char) (scopeKVs recordKVs : List KVPair) :
    List Char :=
  serializer_finish (recordKVs.foldl emit_arguments
    (scopeKVs.foldl emit_arguments (msg, true)))

/-- One attribute rendered as `key="escaped-value"`. -/
def kvText (kv : KVPair) : List Char :=
  kv.1 ++ ("=\"".data) ++ write_str kv.2 ++ ("\"".data)

/-! ## Name parsing (`src/src/facility.rs`, `src/src/level.rs`) -/

/-- Rust's `char::to_ascii_lowercase` (`u8`-wise in
`str::to_ascii_lowercase`): adds 32 to `A`–`Z`, leaves everything else. -/
def asciiLower (c : Char) : Char :=
  if 65 ≤ c.toNat ∧ c.toNat ≤ 90 then Char.ofNat (c.toNat + 32) else c

/-- Rust's `str::to_ascii_lowercase`. -/
def to_ascii_lowercase (s : String) : String :=
  ⟨s.data.map asciiLower⟩

/-- `UnknownFacilityError` of `src/src/facility.rs`: stores the
unrecognized (lowercased) facility name. -/
structure UnknownFacilityError where
  name : String
deriving DecidableEq, Repr

/-- `UnknownLevelError` of `src/src/level.rs`: stores the unrecognized
(lowercased) level name. -/
structure UnknownLevelError where
  name : String
deriving DecidableEq, Repr

namespace Facility

/-- `Facility::name`, from `src/src/facility.rs` lines 188–225 (the
`__NonExhaustive` arm panics and is excluded). -/
def name : Facility → String
  | .Auth => "auth"
  | .AuthPriv => "authpriv"
  | .Cron => "cron"
  | .Daemon => "daemon"
  | .Ftp => "ftp"
  | .Kern => "kern"
  | .Install => "install"
  | .Launchd => "launchd"
  | .Local0 => "local0"
  | .Local1 => "local1"
  | .Local2 => "local2"
  | .Local3 => "local3"
  | .Local4 => "local4"
  | .Local5 => "local5"
  | .Local6 => "local6"
  | .Local7 => "local7"
  | .Lpr => "lpr"
  | .Mail => "mail"
  | .Ntp => "ntp"
  | .NetInfo => "netinfo"
  | .News => "news"
  | .Ras => "ras"
  | .RemoteAuth => "remoteauth"
  | .Security => "security"
  | .Syslog => "syslog"
  | .User => "user"
  | .Uucp => "uucp"

/-- The `match &*s` block of `impl FromStr for Facility`, applied to the
already-lowercased string. -/
def from_str_lowered (s : String) : Except UnknownFacilityError Facility :=
  match s with
  | "auth" => .ok .Auth
  | "authpriv" => .ok .AuthPriv
  | "cron" => .ok .Cron
  | "daemon" => .ok .Daemon
  | "ftp" => .ok .Ftp
  | "kern" => .ok .Kern
  | "install" => .ok .Install
  | "launchd" => .ok .Launchd
  | "local0" => .ok .Local0
  | "local1" => .ok .Local1
  | "local2" => .ok .Local2
  | "local3" => .ok .Local3
  | "local4" => .ok .Local4
  | "local5" => .ok .Local5
  | "local6" => .ok .Local6
  | "local7" => .ok .Local7
  | "lpr" => .ok .Lpr
  | "mail" => .ok .Mail
  | "ntp" => .ok .Ntp
  | "netinfo" => .ok .NetInfo
  | "news" => .ok .News
  | "ras" => .ok .Ras
  | "remoteauth" => .ok .RemoteAuth
  | "security" => .ok .Security
  | "syslog" => .ok .Syslog
  | "user" => .ok .User
  | "uucp" => .ok .Uucp
  | _ => .error ⟨s⟩

/-- `impl FromStr for Facility` (`src/src/facility.rs` lines 458–497):
`let s = s.to_ascii_lowercase();` followed by the name match. -/
def from_str (s : String) : Except UnknownFacilityError Facility :=
  from_str_lowered (to_ascii_lowercase s)

end Facility

namespace Level

/-- `Level::name`, from `src/src/level.rs` lines 49–65. -/
def name : Level → String
  | .Emerg => "emerg"
  | .Alert => "alert"
  | .Crit => "crit"
  | .Err => "err"
  | .Warning => "warning"
  | .Notice => "notice"
  | .Info => "info"
  | .Debug => "debug"

/-- The `match &*s` block of `impl FromStr for Level`, applied to the
already-lowercased string (with the `panic`, `error`, and `warn`
aliases). -/
def from_str_lowered (s : String) : Except UnknownLevelError Level :=
  match s with
  | "emerg" | "panic" => .ok .Emerg
  | "alert" => .ok .Alert
  | "crit" => .ok .Crit
  | "err" | "error" => .ok .Err
  | "warning" | "warn" => .ok .Warning
  | "notice" => .ok .Notice
  | "info" => .ok .Info
  | "debug" => .ok .Debug
  | _ => .error ⟨s⟩

/-- `impl FromStr for Level` (`src/src/level.rs` lines 147–167):
`let s = s.to_ascii_lowercase();` followed by the name match. -/
def from_str (s : String) : Except UnknownLevelError Level :=
  from_str_lowered (to_ascii_lowercase s)

end Level

/-! ## `SyslogDrain::log` (`src/src/drain.rs` lines 222–285)

The formatter configured in the drain is abstract; its outcome for the
given record and key-value list enters the model as a
`fmtResult : Except (List Char) (List Char)` — on success the text the
formatter wrote into the thread-local buffer, on failure the `Display`
rendering of the `slog::Error`. A `syslog(3)` call is recorded as the
priority together with the message text produced by its `"%s"`-style
format string. -/

/-- `libc::LOG_ERR`. -/
def LOG_ERR : Int := 3

/-- `get_priority` of `src/src/drain.rs` (lines 311–323): the Rust `match`
has arms for `Critical`, `Error`, `Warning`, `Debug | Trace`, and a
`_ => libc::LOG_INFO` catch-all that fires exactly for `Info`. -/
def get_priority : SlogLevel → Int
  | .Critical => 2
  | .Error => 3
  | .Warning => 4
  | .Debug | .Trace => 7
  | _ => 6

/-- One `syslog` call: priority and the message text after `%s`
substitution. -/
structure Submission where
  priority : Int
  text : List Char
deriving DecidableEq, Repr

/-- `make_cstr_lossy` (`src/src/drain.rs` lines 287–299): strips all NUL
bytes from the buffer. (The single NUL terminator it then appends is the
C-string terminator, not part of the message text, and is dropped in this
text-level model.) -/
def make_cstr_lossy (s : List Char) : List Char :=
  s.filter fun b => b ≠ Char.ofNat 0

/-- Outcome of one `SyslogDrain::log` call: the returned value (of type
`Result<(), slog::Never>`, so the error type is uninhabited), the
`syslog` submissions made, and the thread-local buffer contents on
return. -/
structure LogOutcome where
  result : Except Empty Unit
  submissions : List Submission
  finalBuf : List Char

/-- `impl Drain for SyslogDrain`, `fn log`: picks the priority
(`log_priority` when positive, else `get_priority` of the record level);
formats into the thread-local buffer; on a formatting error clears the
buffer and writes just the raw message; submits the (NUL-stripped)
buffer; clears the buffer; on a formatting error additionally submits a
second entry at `libc::LOG_ERR` reporting the error, then clears again;
returns `Ok(())`. -/
def syslogDrain_log (log_priority : Int) (recordLevel : SlogLevel)
    (recordMsg : List Char) (fmtResult : Except (List Char) (List Char)) : LogOutcome :=
  let priority := if log_priority > 0 then log_priority else get_priority recordLevel
  let tl_buf := match fmtResult with
    | .ok formatted => formatted
    | .error _ => recordMsg
  let sub1 : Submission := ⟨priority, make_cstr_lossy tl_buf⟩
  match fmtResult with
  | .ok _ => ⟨.ok (), [sub1], []⟩
  | .error fmt_err =>
    let sub2 : Submission :=
      ⟨LOG_ERR, ("Error fully formatting the previous log message: ".data) ++
        make_cstr_lossy fmt_err⟩
    ⟨.ok (), [sub1, sub2], []⟩

/-! ## `openlog`/`closelog` ownership lifecycle (`src/src/drain.rs`)

`LAST_UNIQUE_IDENT` holds the address (a `usize`, compared but never
dereferenced) of the owned `ident` string most recently passed to
`openlog`, or the null sentinel; it is modelled as `Option Nat` with
`none` for null. Addresses of distinct live owned strings are distinct
`Nat`s. Events record the calls made at the libc boundary and the point
at which an owned ident string's memory is released. The poisoned-mutex
branch of `Drop` (which leaks the string) is outside these claims; the
lock is taken to be healthy. -/

/-- Observable lifecycle events. -/
inductive LifecycleEvent where
  | openlogCall (ident : Option Nat)
  | closelogCall
  | freeIdent (addr : Nat)
deriving DecidableEq, Repr

/-- The builder's `ident` field: `Some(Cow::Owned(_))` (boxed at some
address), `Some(Cow::Borrowed(_))` (a `'static` string at some address),
or `None`. -/
inductive IdentChoice where
  | ownedIdent (addr : Nat)
  | borrowedIdent (addr : Nat)
  | noIdent
deriving DecidableEq, Repr

/-- Contents of `LAST_UNIQUE_IDENT`: owned-ident address or null. -/
abbrev OwnerState := Option Nat

/-- The `unique_ident` field of `SyslogDrain`, reduced to the address of
the owned ident string (if owned). -/
structure DrainOwnership where
  unique_ident : Option Nat
deriving DecidableEq, Repr

/-- `SyslogDrain::from_builder` (`src/src/drain.rs` lines 95–145),
restricted to its `openlog` call and ownership bookkeeping: `openlog` is
invoked with the ident pointer (null when absent); if that pointer is
non-null, `LAST_UNIQUE_IDENT` is set to the owned string's address, or to
null when the ident is borrowed; a null ident pointer leaves the previous
record unchanged. Returns the constructed drain's ownership, the new
recorded owner, and the events. -/
def from_builder (st : OwnerState) (ident : IdentChoice) :
    DrainOwnership × OwnerState × List LifecycleEvent :=
  let identPtr : Option Nat := match ident with
    | .ownedIdent a => some a
    | .borrowedIdent a => some a
    | .noIdent => none
  let unique_ident : Option Nat := match ident with
    | .ownedIdent a => some a
    | _ => none
  let st2 : OwnerState := match identPtr with
    | none => st
    | some _ => unique_ident
  (⟨unique_ident⟩, st2, [LifecycleEvent.openlogCall identPtr])

/-- `impl Drop for SyslogDrain` (`src/src/drain.rs` lines 147–220), with
a healthy mutex: with no owned ident, a no-op; with an owned ident, call
`closelog` and reset the recorded owner to null exactly when the owned
string's address equals the recorded owner, then (in either case) free
the owned string. -/
def drop_drain (st : OwnerState) (d : DrainOwnership) :
    OwnerState × List LifecycleEvent :=
  match d.unique_ident with
  | none => (st, [])
  | some a =>
    if st = some a then (none, [.closelogCall, .freeIdent a])
    else (st, [.freeIdent a])

/-! ## `Streamer3164::log` error selection (`src/lib.rs` lines 120–215) -/

/-- What `Error::source()` of a `syslog::Error` exposes: no source, a
`std::fmt::Error` source, or any other source (such as the I/O error of a
failed transport write). -/
inductive SyslogErrorSource where
  | noSource
  | fmtErrorSource
  | otherSource
deriving DecidableEq, Repr

/-- A `syslog::Error`, reduced to what the selection logic inspects. -/
structure SyslogError where
  source : SyslogErrorSource
deriving DecidableEq, Repr

/-- `has_significant_error` of `Streamer3164::log`: the result holds an
error whose source exists and is not `std::fmt::Error`. -/
def has_significant_error (result : Except SyslogError Unit) : Bool :=
  match result with
  | .error e =>
    match e.source with
    | .noSource => false
    | .fmtErrorSource => false
    | .otherSource => true
  | .ok _ => false

/-- The final result-selection block of `Streamer3164::log` (lines
180–213): return `log_result` if it holds a significant error; otherwise,
if the message-format result holds an error, translate it into a
`syslog::Error` (the translation itself — `with_chain`/`from_kind` per
`slog::Error` variant — is abstracted as `translate`) and return that;
otherwise return `log_result`. -/
def streamer_log_select {SlogError : Type} (translate : SlogError → SyslogError)
    (log_result : Except SyslogError Unit)
    (msg_format_result : Except SlogError Unit) : Except SyslogError Unit :=
  if has_significant_error log_result then log_result
  else
    match msg_format_result with
    | .error e => .error (translate e)
    | .ok _ => log_result

end SlogSyslog

namespace SlogSyslog

/-! ## Theorems -/

/-- **C6.** For all priorities `P` and `Q`, `P.overlay(Q)` produces the
combination of `P`'s level with `Q`'s facility exactly when `P` is symbolic
with no facility and `Q` is symbolic with a facility; in every other case
`P.overlay(Q)` equals `P`; consequently `P.overlay(Q).facility()` equals
`P.facility()` whenever `P.facility()` is already present. -/
theorem overlay_fills_only_absent_facility (p q : Priority) :
    (∀ l f, p.kind = .Normal l none → (∃ lq, q.kind = .Normal lq (some f)) →
      p.overlay q = Priority.new l (some f)) ∧
    (((∀ l, p.kind ≠ .Normal l none) ∨ (∀ lq f, q.kind ≠ .Normal lq (some f))) →
      p.overlay q = p) ∧
    (∀ f, p.facility = some f → (p.overlay q).facility = some f) := by
  obtain ⟨pk⟩ := p
  obtain ⟨qk⟩ := q
  refine ⟨?_, ?_, ?_⟩
  · rintro l f h ⟨lq, hq⟩
    subst h; subst hq
    rfl
  · rintro (h | h)
    · cases pk with
      | Normal l fac =>
        cases fac with
        | none => exact absurd rfl (h l)
        | some f => cases qk <;> rfl
      | Raw n => cases qk <;> rfl
    · cases qk with
      | Normal lq qfac =>
        cases qfac with
        | none =>
          cases pk with
          | Normal l fac => cases fac <;> rfl
          | Raw n => rfl
        | some f => exact absurd rfl (h lq f)
      | Raw n =>
        cases pk with
        | Normal l fac => cases fac <;> rfl
        | Raw n2 => rfl
  · intro f h
    cases pk with
    | Normal l fac =>
      simp only [Priority.facility] at h
      subst h
      cases qk <;> rfl
    | Raw n => simp [Priority.facility] at h

/-- Witness for C6 at concrete priorities: overlay fills the missing
facility of `(Err, –)` from `(Notice, Mail)`, leaves `(Err, Auth)` and an
overlay with a raw priority unchanged, and preserves a present facility. -/
theorem overlay_fills_only_absent_facility_witness :
    (Priority.new .Err none).overlay (Priority.new .Notice (some .Mail)) =
      Priority.new .Err (some .Mail) ∧
    (Priority.new .Err (some .Auth)).overlay (Priority.new .Notice (some .Mail)) =
      Priority.new .Err (some .Auth) ∧
    (Priority.new .Err none).overlay (Priority.from_raw 13) = Priority.new .Err none ∧
    ((Priority.new .Err (some .Auth)).overlay (Priority.new .Notice (some .Mail))).facility =
      some .Auth := by
  refine ⟨?_, ?_, ?_, ?_⟩
  · exact (overlay_fills_only_absent_facility _ _).1 .Err .Mail rfl ⟨.Notice, rfl⟩
  · exact (overlay_fills_only_absent_facility _ _).2.1 (Or.inl (by intro l h; simp [Priority.new] at h))
  · exact (overlay_fills_only_absent_facility _ _).2.1 (Or.inr (by intro lq f h; simp [Priority.from_raw] at h))
  · exact (overlay_fills_only_absent_facility _ _).2.2 .Auth rfl

/-- **C7.** `Priority` equality and hashing are determined entirely by the
resolved numeric encoding `into_raw`: a symbolic priority encodes as the
bitwise OR of its level's constant and its facility's constant (0 when
absent), a raw priority encodes as its stored value; any symbolic priority
compares equal to the raw priority with the same encoding, and in
particular `Priority::new(Level::Info, Some(Facility::Local0))` equals the
raw priority `LOG_INFO | LOG_LOCAL0 = 134`. -/
theorem priority_eq_hash_by_into_raw :
    (∀ p q : Priority, Priority.eqPriority p q = (p.into_raw == q.into_raw)) ∧
    (∀ (α : Type) (hasher : Int → α) (p q : Priority),
      p.into_raw = q.into_raw → p.hashWith hasher = q.hashWith hasher) ∧
    (∀ l f, (Priority.new l (some f)).into_raw = Int.lor l.toInt f.toInt) ∧
    (∀ l, (Priority.new l none).into_raw = l.toInt) ∧
    (∀ n, (Priority.from_raw n).into_raw = n) ∧
    (∀ l f, Priority.eqPriority (Priority.new l (some f))
      (Priority.from_raw (Int.lor l.toInt f.toInt)) = true) ∧
    Priority.eqPriority (Priority.new .Info (some .Local0)) (Priority.from_raw 134) = true := by
  refine ⟨fun p q => rfl, ?_, fun l f => rfl, ?_, fun n => rfl, ?_, by decide⟩
  · intro α hasher p q h
    simp [Priority.hashWith, h]
  · intro l
    show Int.lor l.toInt 0 = l.toInt
    cases l <;> decide
  · intro l f
    simp [Priority.eqPriority, Priority.new, Priority.from_raw, Priority.into_raw]

/-- Witness for C7: hashing (with the identity hasher) agrees on the
symbolic priority `(Warning, Local3)` and the equal raw priority `156`. -/
theorem priority_eq_hash_by_into_raw_witness :
    Priority.hashWith id (Priority.new .Warning (some .Local3)) =
      Priority.hashWith id (Priority.from_raw 156) :=
  priority_eq_hash_by_into_raw.2.1 Int id
    (Priority.new .Warning (some .Local3)) (Priority.from_raw 156) (by decide)

/-- **C8.** The default priority mapping (`Adapter::priority`) takes the
record's severity through the fixed table Critical→Crit, Error→Err,
Warning→Warning, Info→Info, Debug→Debug, Trace→Debug and returns a
`Priority` with no facility, for every record. -/
theorem default_priority_mapping :
    (∀ l, (defaultAdapterPriority l).facility = none) ∧
    (∀ l, defaultAdapterPriority l = Priority.new (Level.from_slog l) none) ∧
    defaultAdapterPriority .Critical = Priority.new .Crit none ∧
    defaultAdapterPriority .Error = Priority.new .Err none ∧
    defaultAdapterPriority .Warning = Priority.new .Warning none ∧
    defaultAdapterPriority .Info = Priority.new .Info none ∧
    defaultAdapterPriority .Debug = Priority.new .Debug none ∧
    defaultAdapterPriority .Trace = Priority.new .Debug none := by
  exact ⟨fun l => by cases l <;> rfl, fun l => rfl, rfl, rfl, rfl, rfl, rfl, rfl⟩

/-! ### Escaper lemmas (C4, C5) -/

theorem findDelim_none_all {s : List Char} (h : findDelim s = none) :
    ∀ c ∈ s, isEscDelim c = false := by
  induction s with
  | nil => simp
  | cons c rest ih =>
    simp only [findDelim] at h
    by_cases hc : isEscDelim c
    · rw [if_pos hc] at h; simp at h
    · rw [if_neg hc] at h
      intro x hx
      rcases List.mem_cons.mp hx with rfl | hx
      · simpa using hc
      · cases hmap : findDelim rest with
        | none => exact ih hmap x hx
        | some j => rw [hmap] at h; simp [Option.map] at h

theorem findDelim_spec {s : List Char} {i : Nat} (h : findDelim s = some i) :
    isEscDelim (s.getD i default) = true ∧ ∀ c ∈ s.take i, isEscDelim c = false := by
  induction s generalizing i with
  | nil => simp [findDelim] at h
  | cons c rest ih =>
    simp only [findDelim] at h
    by_cases hc : isEscDelim c
    · rw [if_pos hc] at h
      injection h with h
      subst h
      simpa using hc
    · rw [if_neg hc] at h
      cases hmap : findDelim rest with
      | none => rw [hmap] at h; simp [Option.map] at h
      | some j =>
        rw [hmap] at h
        simp only [Option.map] at h
        injection h with h
        subst h
        obtain ⟨h1, h2⟩ := ih hmap
        refine ⟨by simpa using h1, ?_⟩
        intro x hx
        rw [List.take_succ_cons] at hx
        rcases List.mem_cons.mp hx with rfl | hx
        · simpa using hc
        · exact h2 x hx

theorem escapeSpec_append (l m : List Char) :
    escapeSpec (l ++ m) = escapeSpec l ++ escapeSpec m :=
  List.flatMap_append l m _

theorem escapeSpec_eq_self {s : List Char} (h : ∀ c ∈ s, isEscDelim c = false) :
    escapeSpec s = s := by
  induction s with
  | nil => rfl
  | cons c rest ih =>
    have hc := h c (List.mem_cons_self c rest)
    simp only [escapeSpec, List.flatMap_cons, hc, Bool.false_eq_true, if_neg, if_false]
    rw [show rest.flatMap (fun c => if isEscDelim c then ['\\', c] else [c]) = escapeSpec rest from rfl,
      ih fun x hx => h x (List.mem_cons_of_mem c hx)]
    rfl

theorem write_char_of_delim {c : Char} (h : isEscDelim c = true) :
    write_char c = ['\\', c] := by
  simp only [isEscDelim, Bool.or_eq_true, beq_iff_eq] at h
  rcases h with (rfl | rfl) | rfl <;> rfl

/-- The escaper loop agrees with per-character escaping. -/
theorem write_str_eq_escapeSpec (s : List Char) : write_str s = escapeSpec s := by
  suffices H : ∀ (n : Nat) (s : List Char), s.length = n → write_str s = escapeSpec s from
    H s.length s rfl
  intro n
  induction n using Nat.strong_induction_on with
  | _ n ih =>
    intro s hn
    rw [write_str.eq_def]
    cases hfind : findDelim s with
    | none => exact (escapeSpec_eq_self (findDelim_none_all hfind)).symm
    | some i =>
      show s.take i ++ write_char (s.getD i default) ++ write_str (s.drop (i + 1)) =
        escapeSpec s
      have hi : i < s.length := findDelim_lt_length hfind
      obtain ⟨hdelim, htake⟩ := findDelim_spec hfind
      have hdecomp : s.take i ++ s.getD i default :: s.drop (i + 1) = s := by
        rw [List.getD_eq_getElem s default hi, List.getElem_cons_drop s i hi,
          List.take_append_drop]
      generalize hg : s.getD i default = c at hdelim hdecomp ⊢
      calc s.take i ++ write_char c ++ write_str (s.drop (i + 1))
          = s.take i ++ ['\\', c] ++ escapeSpec (s.drop (i + 1)) := by
            rw [write_char_of_delim hdelim,
              ih (s.drop (i + 1)).length (by subst hn; simp; omega) _ rfl]
        _ = escapeSpec (s.take i) ++ escapeSpec [c] ++
              escapeSpec (s.drop (i + 1)) := by
            rw [escapeSpec_eq_self htake]
            simp only [escapeSpec, List.flatMap_cons, List.flatMap_nil, List.append_nil,
              hdelim, if_true]
        _ = escapeSpec s := by
            rw [← escapeSpec_append, ← escapeSpec_append]
            simp only [List.append_assoc, List.singleton_append]
            rw [hdecomp]

theorem escapeSpec_ne_nil {s : List Char} (h : s ≠ []) : escapeSpec s ≠ [] := by
  cases s with
  | nil => exact absurd rfl h
  | cons c rest =>
    simp only [escapeSpec, List.flatMap_cons]
    by_cases hc : isEscDelim c <;> simp [hc]

/-- Removing the backslash prefixes undoes per-character escaping. -/
theorem unescape_escapeSpec (s : List Char) : unescape (escapeSpec s) = s := by
  induction s with
  | nil => rfl
  | cons c rest ih =>
    by_cases hc : isEscDelim c
    · have : escapeSpec (c :: rest) = '\\' :: c :: escapeSpec rest := by
        simp [escapeSpec, hc]
      rw [this, unescape]
      · simp [hc, ih]
    · have hne : c ≠ '\\' := by
        rintro rfl
        simp [isEscDelim] at hc
      have : escapeSpec (c :: rest) = c :: escapeSpec rest := by
        simp [escapeSpec, hc]
      rw [this]
      cases hrest : escapeSpec rest with
      | nil =>
        have : rest = [] := by
          by_contra hne2
          exact escapeSpec_ne_nil hne2 hrest
        rw [this, unescape]
      | cons b rest2 =>
        rw [unescape]
        · rw [if_neg (by rintro ⟨rfl, -⟩; exact hne rfl), ← hrest, ih]

/-- **C4.** For every input string, the value escaper writes exactly the
input with each occurrence of backslash, double-quote, or closing-bracket
prefixed by a single backslash and every other character copied through
unchanged; in particular, for every string containing none of the three
characters, the output equals the input. (The sink in this embedding is
the pure string accumulator, which cannot fail, so no error arises.) -/
theorem escaper_escapes_three_delims (s : List Char) :
    write_str s = escapeSpec s ∧
    ((∀ c ∈ s, isEscDelim c = false) → write_str s = s) :=
  ⟨write_str_eq_escapeSpec s,
    fun h => (write_str_eq_escapeSpec s).trans (escapeSpec_eq_self h)⟩

/-- Witness for C4: the escaper maps `a"b]c\` to `a\"b\]c\\` and leaves
the delimiter-free `foo[bar` unchanged. -/
theorem escaper_escapes_three_delims_witness :
    write_str ['a', '"', 'b', ']', 'c', '\\'] =
      ['a', '\\', '"', 'b', '\\', ']', 'c', '\\', '\\'] ∧
    write_str ['f', 'o', 'o', '[', 'b', 'a', 'r'] = ['f', 'o', 'o', '[', 'b', 'a', 'r'] := by
  constructor
  · rw [(escaper_escapes_three_delims ['a', '"', 'b', ']', 'c', '\\']).1]
    decide
  · exact (escaper_escapes_three_delims ['f', 'o', 'o', '[', 'b', 'a', 'r']).2 (by decide)

/-- **C5.** For every string `S`, applying the inverse transformation
(removing the single backslash prefix before each escaped character) to
the escaper's output recovers `S` exactly; for every `S` containing no
backslash, double-quote, or closing-bracket, escaping is the identity. -/
theorem escape_roundtrip (s : List Char) :
    unescape (write_str s) = s ∧
    ((∀ c ∈ s, isEscDelim c = false) → write_str s = s) := by
  refine ⟨?_, fun h => (write_str_eq_escapeSpec s).trans (escapeSpec_eq_self h)⟩
  rw [write_str_eq_escapeSpec s]
  exact unescape_escapeSpec s

/-- Witness for C5: round trip through the escaper at `x]\y`, and identity
at the delimiter-free `hello`. -/
theorem escape_roundtrip_witness :
    unescape (write_str ['x', ']', '\\', 'y']) = ['x', ']', '\\', 'y'] ∧
    write_str ['h', 'e', 'l', 'l', 'o'] = ['h', 'e', 'l', 'l', 'o'] :=
  ⟨(escape_roundtrip ['x', ']', '\\', 'y']).1,
    (escape_roundtrip ['h', 'e', 'l', 'l', 'o']).2 (by decide)⟩

/-! ### Default format lemmas (C9) -/

theorem foldl_emit_false (acc : List Char) (kvs : List KVPair) :
    kvs.foldl emit_arguments (acc, false) =
      (acc ++ (kvs.map fun kv => (" ".data) ++ kvText kv).flatten, false) := by
  induction kvs generalizing acc with
  | nil => simp
  | cons x xs ih =>
    simp only [List.foldl_cons, emit_arguments, if_neg (Bool.false_ne_true), List.map_cons,
      List.flatten_cons]
    rw [ih]
    simp [kvText]

theorem foldl_emit_true_cons (msg : List Char) (x : KVPair) (xs : List KVPair) :
    (x :: xs).foldl emit_arguments (msg, true) =
      (msg ++ (" [".data) ++ kvText x ++
        (xs.map fun kv => (" ".data) ++ kvText kv).flatten, false) := by
  simp only [List.foldl_cons, emit_arguments, if_pos rfl]
  rw [foldl_emit_false]
  simp [kvText]

theorem intercalate_space_eq (x : KVPair) (xs : List KVPair) :
    List.intercalate (" ".data) ((x :: xs).map kvText) =
      kvText x ++ (xs.map fun kv => (" ".data) ++ kvText kv).flatten := by
  induction xs generalizing x with
  | nil => simp [List.intercalate]
  | cons y ys ih =>
    have hstep : List.intercalate (" ".data) ((x :: y :: ys).map kvText) =
        kvText x ++ (" ".data) ++ List.intercalate (" ".data) ((y :: ys).map kvText) := by
      simp [List.intercalate, List.intersperse]
    rw [hstep, ih y]
    simp

/-- **C9.** For a fixed record and fixed attribute serialization order,
the default (structured) formatter's output is exactly the message text
when the combined attribute sequence is empty, and otherwise the message
followed by a single space, an opening bracket, each attribute rendered as
`key="escaped-value"` separated by single spaces, and a closing bracket,
with the scope (logger) attributes serialized before the record's own
attributes. -/
theorem default_format_output (msg : List Char) (scopeKVs recordKVs : List KVPair) :
    (scopeKVs ++ recordKVs = [] → defaultMsgFormat_fmt msg scopeKVs recordKVs = msg) ∧
    (scopeKVs ++ recordKVs ≠ [] →
      defaultMsgFormat_fmt msg scopeKVs recordKVs =
        msg ++ (" [".data) ++
          List.intercalate (" ".data) ((scopeKVs ++ recordKVs).map kvText) ++ ("]".data)) := by
  have hfold : defaultMsgFormat_fmt msg scopeKVs recordKVs =
      serializer_finish ((scopeKVs ++ recordKVs).foldl emit_arguments (msg, true)) := by
    rw [defaultMsgFormat_fmt, List.foldl_append]
  constructor
  · intro h
    obtain ⟨h1, h2⟩ := List.append_eq_nil.mp h
    subst h1; subst h2
    rfl
  · intro h
    cases hc : scopeKVs ++ recordKVs with
    | nil => exact absurd hc h
    | cons x xs =>
      rw [hfold, hc, foldl_emit_true_cons, intercalate_space_eq]
      simp [serializer_finish]

/-- Witness for C9 (spec Scenario 1): message `Hello, world!` with scope
attribute `key2=value2` and record attribute `key1=value1` formats to
`Hello, world! [key2="value2" key1="value1"]`; with no attributes the
output is the bare message. -/
theorem default_format_output_witness :
    defaultMsgFormat_fmt ("Hello, world!".data)
        [(("key2".data), ("value2".data))] [(("key1".data), ("value1".data))] =
      ("Hello, world! [key2=\"value2\" key1=\"value1\"]".data) ∧
    defaultMsgFormat_fmt ("Hello, world!".data) [] [] = ("Hello, world!".data) := by
  constructor
  · rw [(default_format_output ("Hello, world!".data)
      [(("key2".data), ("value2".data))] [(("key1".data), ("value1".data))]).2 (by decide)]
    simp only [List.cons_append, List.nil_append, List.map_cons, List.map_nil, kvText,
      write_str_eq_escapeSpec]
    decide
  · exact (default_format_output ("Hello, world!".data) [] []).1 rfl

/-! ### Name parsing lemmas (C10) -/

theorem asciiLower_idem (c : Char) : asciiLower (asciiLower c) = asciiLower c := by
  unfold asciiLower
  by_cases h : 65 ≤ c.toNat ∧ c.toNat ≤ 90
  · rw [if_pos h]
    have hval : (Char.ofNat (c.toNat + 32)).toNat = c.toNat + 32 := by
      rw [Char.toNat, Char.ofNat, dif_pos (Or.inl (by omega))]
      rfl
    rw [if_neg (by rw [hval]; omega)]
  · rw [if_neg h, if_neg h]

theorem to_ascii_lowercase_idem (s : String) :
    to_ascii_lowercase (to_ascii_lowercase s) = to_ascii_lowercase s := by
  have hmap : ∀ l : List Char, (l.map asciiLower).map asciiLower = l.map asciiLower := by
    intro l
    induction l with
    | nil => rfl
    | cons c cs ih => simp [asciiLower_idem c, ih]
  exact congrArg String.mk (hmap s.data)

theorem facility_from_str_lowered_error {s : String} {e : UnknownFacilityError}
    (h : Facility.from_str_lowered s = .error e) : e.name = s := by
  unfold Facility.from_str_lowered at h
  split at h <;> simp_all <;> exact congrArg UnknownFacilityError.name h.symm

theorem level_from_str_lowered_error {s : String} {e : UnknownLevelError}
    (h : Level.from_str_lowered s = .error e) : e.name = s := by
  unfold Level.from_str_lowered at h
  split at h <;> simp_all <;> exact congrArg UnknownLevelError.name h.symm

/-- **C10.** For every `Facility` value `f` (other than the hidden
non-exhaustive variant), `Facility::from_str(f.name())` returns `Ok(f)`,
and parsing is case-insensitive (`from_str(s)` agrees with `from_str` of
the ASCII-lowercased `s`); the same round trip holds for every `Level`,
with the aliases `warn`, `error`, and `panic` also accepted; on failure
the unknown-name error stores the lowercased input string. -/
theorem name_parse_roundtrip :
    (∀ f : Facility, Facility.from_str (Facility.name f) = .ok f) ∧
    (∀ s, Facility.from_str s = Facility.from_str (to_ascii_lowercase s)) ∧
    (∀ l : Level, Level.from_str (Level.name l) = .ok l) ∧
    (∀ s, Level.from_str s = Level.from_str (to_ascii_lowercase s)) ∧
    Level.from_str "warn" = .ok .Warning ∧
    Level.from_str "error" = .ok .Err ∧
    Level.from_str "panic" = .ok .Emerg ∧
    (∀ s e, Facility.from_str s = .error e → e.name = to_ascii_lowercase s) ∧
    (∀ s e, Level.from_str s = .error e → e.name = to_ascii_lowercase s) := by
  refine ⟨fun f => by cases f <;> rfl,
    fun s => by rw [Facility.from_str, Facility.from_str, to_ascii_lowercase_idem],
    fun l => by cases l <;> rfl,
    fun s => by rw [Level.from_str, Level.from_str, to_ascii_lowercase_idem],
    rfl, rfl, rfl, ?_, ?_⟩
  · intro s e h
    exact facility_from_str_lowered_error h
  · intro s e h
    exact level_from_str_lowered_error h

/-- Witness for C10: parsing the unknown name `FooBar` fails with the
lowercased name `foobar` stored in the error; parsing `WARN` succeeds. -/
theorem name_parse_roundtrip_witness :
    (Facility.from_str "FooBar" = .error ⟨"foobar"⟩ ∧
      (⟨"foobar"⟩ : UnknownFacilityError).name = to_ascii_lowercase "FooBar") ∧
    Level.from_str "WARN" = .ok .Warning := by
  have h : Facility.from_str "FooBar" = .error ⟨"foobar"⟩ := by rfl
  refine ⟨⟨h, name_parse_roundtrip.2.2.2.2.2.2.2.1 "FooBar" ⟨"foobar"⟩ h⟩, ?_⟩
  rw [name_parse_roundtrip.2.2.2.1 "WARN",
    show to_ascii_lowercase "WARN" = "warn" from rfl]
  exact name_parse_roundtrip.2.2.2.2.1

/-! ### Lifecycle, drain log, and streamer theorems (C1, C2, C3) -/

/-- **C1.** Dropping a `SyslogDrain` with an owned identity string calls
`closelog` exactly once if and only if the string's address equals the
recorded owner, with the close preceding the release of the string's
memory and the recorded owner reset to the null sentinel; dropping a
drain that is no longer the recorded owner performs no close but still
frees its identity string. In particular, constructing drain A (owned
ident at `a`) and dropping it closes then frees, while constructing drain
B (owned ident at `b ≠ a`) after A makes dropping A free-only. -/
theorem drop_closes_iff_recorded_owner (st : OwnerState) (a : Nat) :
    ((drop_drain st ⟨some a⟩).2.count .closelogCall = if st = some a then 1 else 0) ∧
    (st = some a →
      drop_drain st ⟨some a⟩ = (none, [.closelogCall, .freeIdent a])) ∧
    (st ≠ some a →
      drop_drain st ⟨some a⟩ = (st, [.freeIdent a])) ∧
    ((drop_drain st ⟨some a⟩).2.count (.freeIdent a) = 1) ∧
    (drop_drain (from_builder st (.ownedIdent a)).2.1
      (from_builder st (.ownedIdent a)).1 = (none, [.closelogCall, .freeIdent a])) ∧
    (∀ b, b ≠ a →
      drop_drain (from_builder (from_builder st (.ownedIdent a)).2.1
          (.ownedIdent b)).2.1
        (from_builder st (.ownedIdent a)).1 = (some b, [.freeIdent a])) := by
  refine ⟨?_, ?_, ?_, ?_, ?_, ?_⟩
  · by_cases h : st = some a
    · simp [drop_drain, h, List.count_cons]
    · simp [drop_drain, h, List.count_cons]
  · intro h
    simp [drop_drain, h]
  · intro h
    simp [drop_drain, h]
  · by_cases h : st = some a
    · simp [drop_drain, h, List.count_cons]
    · simp [drop_drain, h, List.count_cons]
  · simp [from_builder, drop_drain]
  · intro b hb
    simp only [from_builder, drop_drain]
    rw [if_neg (by simpa using hb)]

/-- Witness for C1 at concrete addresses: with drain A owning the string
at address 1, dropping A as the recorded owner closes then frees and
resets the owner; after drain B (address 2) is constructed, dropping A
only frees. -/
theorem drop_closes_iff_recorded_owner_witness :
    drop_drain (some 1) ⟨some 1⟩ = (none, [.closelogCall, .freeIdent 1]) ∧
    drop_drain (some 2) ⟨some 1⟩ = (some 2, [.freeIdent 1]) ∧
    drop_drain (from_builder (from_builder none (.ownedIdent 1)).2.1
        (.ownedIdent 2)).2.1
      (from_builder none (.ownedIdent 1)).1 = (some 2, [.freeIdent 1]) :=
  ⟨(drop_closes_iff_recorded_owner (some 1) 1).2.1 rfl,
    (drop_closes_iff_recorded_owner (some 2) 1).2.2.1 (by decide),
    (drop_closes_iff_recorded_owner none 1).2.2.2.2.2 2 (by decide)⟩

/-- **C2.** `SyslogDrain::log` always returns success; when the
formatter's `fmt` fails, exactly two submissions are made — first the
record's raw message text (attributes ignored) at the chosen priority,
then a separate entry at `libc::LOG_ERR` whose text reports the
formatting error; when formatting succeeds exactly one submission is
made; the scratch buffer is empty on return on every path. -/
theorem log_two_submissions_on_format_failure (log_priority : Int)
    (recordLevel : SlogLevel) (recordMsg : List Char)
    (fmtResult : Except (List Char) (List Char)) :
    ((syslogDrain_log log_priority recordLevel recordMsg fmtResult).result = .ok ()) ∧
    (∀ e, fmtResult = .error e →
      (syslogDrain_log log_priority recordLevel recordMsg fmtResult).submissions =
        [⟨if log_priority > 0 then log_priority else get_priority recordLevel,
            make_cstr_lossy recordMsg⟩,
          ⟨LOG_ERR, ("Error fully formatting the previous log message: ".data) ++
            make_cstr_lossy e⟩]) ∧
    (∀ s, fmtResult = .ok s →
      (syslogDrain_log log_priority recordLevel recordMsg fmtResult).submissions =
        [⟨if log_priority > 0 then log_priority else get_priority recordLevel,
            make_cstr_lossy s⟩]) ∧
    ((syslogDrain_log log_priority recordLevel recordMsg fmtResult).finalBuf = []) := by
  refine ⟨?_, ?_, ?_, ?_⟩
  · cases fmtResult <;> rfl
  · rintro e rfl
    rfl
  · rintro s rfl
    rfl
  · cases fmtResult <;> rfl

/-- Witness for C2: with a formatter that fails with error text `boom` on
a record with message `hi` at level `Info` (and no forced priority), the
two submissions are the raw message at `LOG_INFO = 6` and the diagnostic
at `LOG_ERR = 3`. -/
theorem log_two_submissions_on_format_failure_witness :
    (syslogDrain_log 0 .Info ("hi".data) (.error ("boom".data))).submissions =
      [⟨6, "hi".data⟩,
        ⟨3, ("Error fully formatting the previous log message: boom".data)⟩] := by
  rw [(log_two_submissions_on_format_failure 0 .Info ("hi".data)
    (.error ("boom".data))).2.1 ("boom".data) rfl]
  decide

/-- **C3.** If the underlying transport write fails during
`Streamer3164::log`, the failure is surfaced to the immediate caller as
an error result value and never silently dropped: whenever the transport
result is an error, the returned value is an error; when the message
formatting succeeded, the returned value is exactly the transport result;
and a transport error with a significant (non-`fmt::Error`) source is
returned verbatim. -/
theorem transport_error_surfaced {SlogError : Type}
    (translate : SlogError → SyslogError) (log_result : Except SyslogError Unit)
    (msg_format_result : Except SlogError Unit) :
    (∀ e, log_result = .error e →
      ∃ e2, streamer_log_select translate log_result msg_format_result = .error e2) ∧
    (msg_format_result = .ok () →
      streamer_log_select translate log_result msg_format_result = log_result) ∧
    (has_significant_error log_result = true →
      streamer_log_select translate log_result msg_format_result = log_result) := by
  refine ⟨?_, ?_, ?_⟩
  · rintro e rfl
    unfold streamer_log_select
    by_cases h : has_significant_error (Except.error e) = true
    · rw [if_pos h]
      exact ⟨e, rfl⟩
    · rw [if_neg h]
      cases msg_format_result with
      | error me => exact ⟨translate me, rfl⟩
      | ok u => exact ⟨e, rfl⟩
  · rintro rfl
    unfold streamer_log_select
    by_cases h : has_significant_error log_result = true
    · rw [if_pos h]
    · rw [if_neg h]
  · intro h
    unfold streamer_log_select
    rw [if_pos h]

/-- Witness for C3: a transport write failure carrying an I/O source is
returned verbatim, both when formatting succeeded and in general. -/
theorem transport_error_surfaced_witness :
    (∃ e2, streamer_log_select (fun _ : Unit => ⟨.otherSource⟩)
      (.error ⟨.otherSource⟩) (.ok ()) = .error e2) ∧
    streamer_log_select (fun _ : Unit => ⟨.otherSource⟩)
      (.error ⟨.otherSource⟩) (.ok ()) = .error ⟨.otherSource⟩ :=
  ⟨(transport_error_surfaced (fun _ : Unit => ⟨.otherSource⟩)
      (.error ⟨.otherSource⟩) (.ok ())).1 ⟨.otherSource⟩ rfl,
    (transport_error_surfaced (fun _ : Unit => ⟨.otherSource⟩)
      (.error ⟨.otherSource⟩) (.ok ())).2.1 rfl⟩

end SlogSyslog
